import Mathlib

/-!
# ZXEmuCore: the `ZXSpectrum` base class

A shallow embedding of `ZX_Spectrum_Core/ZXSpectrum.hpp`.

* Unsigned machine integers (`uint8_t`, `uint16_t`, `uint32_t`) are natural numbers; the
  width of a field is recorded next to it.
* A fixed-size C++ array `T name[N]` is a function `Fin N → Nat`; a `vector<char>` is a list
  of bytes.
* An unscoped C++ enumeration gives its first enumerator the value `0` unless it has an
  initialiser, and every later enumerator the value of its predecessor plus one.
* The header declares the class, its constants, its data members with their default member
  initialisers and one inline member function (`getLastAudioBufferIndex`).  The bodies of the
  other member functions live in translation units that are not part of the sources at hand;
  where such a function is needed it is modelled from the written specification and the
  definition says so.
-/

/-! ## File-scope declarations -/

/-- First enumerator of the file-scope `ULAPlusMode` enumeration, `eULAPlusPaletteGroup = 0`. -/
def eULAPlusPaletteGroup : Nat := 0

/-- Second enumerator of the file-scope `ULAPlusMode` enumeration (no initialiser). -/
def eULAPlusModeGroup : Nat := eULAPlusPaletteGroup + 1

/-- Modelled from the spec: the register file of the external CPU core (`CZ80Core`, declared in
`Z80_Core/Z80Core.h`, which is not among the sources).  The specification only speaks of a
"CPU register file" with a program counter. -/
structure CZ80Core where
  /-- Program counter. -/
  regPC : Nat
  /-- The remaining registers, in header order. -/
  registers : List Nat

/-- The core as it is before any snapshot or reset touched it. -/
def CZ80Core.fresh : CZ80Core := { regPC := 0, registers := [] }

/-! ## Array extents that appear as literals in the member declarations -/

/-- Rows of `uint32_t displayTstateTable[312][228]`. -/
def displayTstateTableRows : Nat := 312

/-- Columns of `uint32_t displayTstateTable[312][228]`. -/
def displayTstateTableCols : Nat := 228

/-- Extent of `uint16_t displayLineAddrTable[192]`. -/
def displayLineAddrTableSize : Nat := 192

/-- Extent of `uint32_t ULAMemoryContentionTable[80000]`. -/
def ULAMemoryContentionTableSize : Nat := 80000

/-- Extent of `uint32_t ULAIOContentionTable[80000]`. -/
def ULAIOContentionTableSize : Nat := 80000

/-- Extent of `uint32_t ULAFloatingBusTable[80000]`. -/
def ULAFloatingBusTableSize : Nat := 80000

namespace ZXSpectrum

/-! ## Class constants -/

/-- The constant `static const uint16_t cBITMAP_ADDRESS = 16384`. -/
def cBITMAP_ADDRESS : Nat := 16384

/-- The constant `static const uint16_t cBITMAP_SIZE = 6144`. -/
def cBITMAP_SIZE : Nat := 6144

/-- The constant `static const uint16_t cATTR_SIZE = 768`. -/
def cATTR_SIZE : Nat := 768

/-- The constant `static const uint16_t cMEMORY_PAGE_SIZE = 16384`. -/
def cMEMORY_PAGE_SIZE : Nat := 16384

/-! ## The AY register enumeration -/

def eAYREGISTER_A_FINE : Nat := 0
def eAYREGISTER_A_COARSE : Nat := eAYREGISTER_A_FINE + 1
def eAYREGISTER_B_FINE : Nat := eAYREGISTER_A_COARSE + 1
def eAYREGISTER_B_COARSE : Nat := eAYREGISTER_B_FINE + 1
def eAYREGISTER_C_FINE : Nat := eAYREGISTER_B_COARSE + 1
def eAYREGISTER_C_COARSE : Nat := eAYREGISTER_C_FINE + 1
def eAYREGISTER_NOISEPER : Nat := eAYREGISTER_C_COARSE + 1
def eAYREGISTER_ENABLE : Nat := eAYREGISTER_NOISEPER + 1
def eAYREGISTER_A_VOL : Nat := eAYREGISTER_ENABLE + 1
def eAYREGISTER_B_VOL : Nat := eAYREGISTER_A_VOL + 1
def eAYREGISTER_C_VOL : Nat := eAYREGISTER_B_VOL + 1
def eAYREGISTER_E_FINE : Nat := eAYREGISTER_C_VOL + 1
def eAYREGISTER_E_COARSE : Nat := eAYREGISTER_E_FINE + 1
def eAYREGISTER_E_SHAPE : Nat := eAYREGISTER_E_COARSE + 1
def eAYREGISTER_PORT_A : Nat := eAYREGISTER_E_SHAPE + 1
def eAYREGISTER_PORT_B : Nat := eAYREGISTER_PORT_A + 1

/-- Slot used to emulate the floating behaviour of selecting an AY register above 15: the value
written there decays over time and is what a read of such a register returns. -/
def eAYREGISTER_FLOATING : Nat := eAYREGISTER_PORT_B + 1

def eAY_MAX_REGISTERS : Nat := eAYREGISTER_FLOATING + 1

/-- The sixteen logical AY registers in declaration order. -/
def ayLogicalRegisters : List Nat :=
  [eAYREGISTER_A_FINE, eAYREGISTER_A_COARSE, eAYREGISTER_B_FINE, eAYREGISTER_B_COARSE,
   eAYREGISTER_C_FINE, eAYREGISTER_C_COARSE, eAYREGISTER_NOISEPER, eAYREGISTER_ENABLE,
   eAYREGISTER_A_VOL, eAYREGISTER_B_VOL, eAYREGISTER_C_VOL, eAYREGISTER_E_FINE,
   eAYREGISTER_E_COARSE, eAYREGISTER_E_SHAPE, eAYREGISTER_PORT_A, eAYREGISTER_PORT_B]

/-! ## The class-scope ULAPlus mode enumeration and the debug operation types -/

/-- First enumerator of the anonymous class-scope enumeration (no initialiser). -/
def eULAplusPaletteGroup : Nat := 0

/-- Second enumerator of the anonymous class-scope enumeration. -/
def eULAplusModeGroup : Nat := eULAplusPaletteGroup + 1

def eDebugReadOp : Nat := 0x01
def eDebugWriteOp : Nat := 0x02
def eDebugExecuteOp : Nat := 0x04

end ZXSpectrum

/-! ## Data members -/

/-- The data members of `class ZXSpectrum` that hold integers, booleans, strings or byte
sequences, in header order.  Raw buffers owned through pointers (`audioBuffer`,
`displayBuffer`, `displayCLUT`, `displayALUT`, `tape`), the floating-point accumulators and
`machineInfo` (whose type is declared in `MachineInfo.h`) are not part of the model. -/
structure ZXSpectrum where
  /-- Member `CZ80Core z80Core`. -/
  z80Core : CZ80Core
  /-- Member `vector<char> memoryRom`, each entry a byte. -/
  memoryRom : List Nat
  /-- Member `vector<char> memoryRam`, each entry a byte. -/
  memoryRam : List Nat
  /-- Member `uint8_t keyboardMap[8]`. -/
  keyboardMap : Fin 8 → Nat
  /-- Member `uint32_t keyboardCapsLockFrames`. -/
  keyboardCapsLockFrames : Nat
  /-- Member `uint32_t emuCurrentDisplayTs`. -/
  emuCurrentDisplayTs : Nat
  /-- Member `uint32_t emuFrameCounter`. -/
  emuFrameCounter : Nat
  emuPaused : Bool
  /-- Member `uint32_t emuRAMPage`. -/
  emuRAMPage : Nat
  /-- Member `uint32_t emuROMPage`. -/
  emuROMPage : Nat
  /-- Member `uint32_t emuDisplayPage`. -/
  emuDisplayPage : Nat
  emuDisablePaging : Bool
  emuROMPath : String
  emuTapeInstantLoad : Bool
  emuUseAYSound : Bool
  emuLoadTrapTriggered : Bool
  emuSaveTrapTriggered : Bool
  emuUseSpecDRUM : Bool
  /-- Member `uint32_t displayBufferIndex`. -/
  displayBufferIndex : Nat
  /-- Member `uint32_t screenWidth`. -/
  screenWidth : Nat
  /-- Member `uint32_t screenHeight`. -/
  screenHeight : Nat
  /-- Member `uint32_t screenBufferSize`. -/
  screenBufferSize : Nat
  /-- Member `uint32_t displayTstateTable[312][228]`. -/
  displayTstateTable : Fin displayTstateTableRows → Fin displayTstateTableCols → Nat
  /-- Member `uint16_t displayLineAddrTable[192]`. -/
  displayLineAddrTable : Fin displayLineAddrTableSize → Nat
  /-- Member `uint32_t displayBorderColor`. -/
  displayBorderColor : Nat
  displayReady : Bool
  /-- Member `uint8_t ulaPlusMode`. -/
  ulaPlusMode : Nat
  /-- Member `uint8_t ulaPlusPaletteOn`. -/
  ulaPlusPaletteOn : Nat
  /-- Member `uint8_t ulaPlusCurrentReg`. -/
  ulaPlusCurrentReg : Nat
  /-- Member `int8_t audioEarBit`. -/
  audioEarBit : Int
  /-- Member `int8_t audioMicBit`. -/
  audioMicBit : Int
  /-- Member `uint32_t audioBufferSize`. -/
  audioBufferSize : Nat
  /-- Member `uint32_t audioBufferIndex`. -/
  audioBufferIndex : Nat
  /-- Member `uint32_t audioLastIndex`. -/
  audioLastIndex : Nat
  /-- Member `uint32_t audioAYChannelCount[3]`. -/
  audioAYChannelCount : Fin 3 → Nat
  /-- Member `uint16_t audioAYVolumes[16]`. -/
  audioAYVolumes : Fin 16 → Nat
  /-- Member `uint32_t audioAYrandom`. -/
  audioAYrandom : Nat
  /-- Member `uint32_t audioAYOutput`. -/
  audioAYOutput : Nat
  /-- Member `uint32_t audioAYNoiseCount`. -/
  audioAYNoiseCount : Nat
  /-- Member `uint32_t audioATaudioAYEnvelopeCount`. -/
  audioATaudioAYEnvelopeCount : Nat
  /-- Member `int32_t audioAYaudioAYEnvelopeStep`. -/
  audioAYaudioAYEnvelopeStep : Int
  /-- Member `uint8_t audioAYRegisters[ eAY_MAX_REGISTERS ]`. -/
  audioAYRegisters : Fin ZXSpectrum.eAY_MAX_REGISTERS → Nat
  /-- Member `uint8_t audioAYCurrentRegister`. -/
  audioAYCurrentRegister : Nat
  /-- Member `uint8_t audioAYFloatingRegister`. -/
  audioAYFloatingRegister : Nat
  audioAYaudioAYaudioAYEnvelopeHolding : Bool
  audioAYaudioAYEnvelopeHold : Bool
  audioAYaudioAYEnvelopeAlt : Bool
  audioAYEnvelope : Bool
  /-- Member `uint32_t audioAYAttackEndVol`. -/
  audioAYAttackEndVol : Nat
  /-- Member `int specdrumDACValue`. -/
  specdrumDACValue : Int
  keyboardCapsLockPressed : Bool
  /-- Member `uint32_t ULAMemoryContentionTable[80000]`. -/
  ULAMemoryContentionTable : Fin ULAMemoryContentionTableSize → Nat
  /-- Member `uint32_t ULAIOContentionTable[80000]`. -/
  ULAIOContentionTable : Fin ULAIOContentionTableSize → Nat
  /-- Member `uint32_t ULAFloatingBusTable[80000]`. -/
  ULAFloatingBusTable : Fin ULAFloatingBusTableSize → Nat
  /-- Member `uint8_t ULAPortnnFDValue`. -/
  ULAPortnnFDValue : Nat
  ULAApplySnow : Bool
  /-- Member `uint8_t ULAPlusMode`. -/
  ULAPlusMode : Nat
  /-- Member `uint8_t ULAPlusCurrentReg`. -/
  ULAPlusCurrentReg : Nat
  /-- Member `uint8_t ULAPlusPaletteOn`. -/
  ULAPlusPaletteOn : Nat
  /-- Member `uint16_t spiPort`. -/
  spiPort : Nat
  breakpointHit : Bool

namespace ZXSpectrum

/-- The object as its default member initialisers leave it: every member takes the value
written after `=` (or inside the braces) in its declaration, the two vectors are empty and
the path is the empty string. -/
def fresh : ZXSpectrum where
  z80Core := CZ80Core.fresh
  memoryRom := []
  memoryRam := []
  keyboardMap := fun _ => 0
  keyboardCapsLockFrames := 0
  emuCurrentDisplayTs := 0
  emuFrameCounter := 0
  emuPaused := false
  emuRAMPage := 0
  emuROMPage := 0
  emuDisplayPage := 0
  emuDisablePaging := true
  emuROMPath := ""
  emuTapeInstantLoad := false
  emuUseAYSound := false
  emuLoadTrapTriggered := false
  emuSaveTrapTriggered := false
  emuUseSpecDRUM := false
  displayBufferIndex := 0
  screenWidth := 48 + 256 + 48
  screenHeight := 48 + 192 + 48
  screenBufferSize := 0
  displayTstateTable := fun _ _ => 0
  displayLineAddrTable := fun _ => 0
  displayBorderColor := 0
  displayReady := false
  ulaPlusMode := 0
  ulaPlusPaletteOn := 0
  ulaPlusCurrentReg := 0
  audioEarBit := 0
  audioMicBit := 0
  audioBufferSize := 0
  audioBufferIndex := 0
  audioLastIndex := 0
  audioAYChannelCount := fun _ => 0
  audioAYVolumes := fun _ => 0
  audioAYrandom := 0
  audioAYOutput := 0
  audioAYNoiseCount := 0
  audioATaudioAYEnvelopeCount := 0
  audioAYaudioAYEnvelopeStep := 0
  audioAYRegisters := fun _ => 0
  audioAYCurrentRegister := 0
  audioAYFloatingRegister := 0
  audioAYaudioAYaudioAYEnvelopeHolding := false
  audioAYaudioAYEnvelopeHold := false
  audioAYaudioAYEnvelopeAlt := false
  audioAYEnvelope := false
  audioAYAttackEndVol := 0
  specdrumDACValue := 0
  keyboardCapsLockPressed := false
  ULAMemoryContentionTable := fun _ => 0
  ULAIOContentionTable := fun _ => 0
  ULAFloatingBusTable := fun _ => 0
  ULAPortnnFDValue := 0
  ULAApplySnow := false
  ULAPlusMode := eULAplusModeGroup
  ULAPlusCurrentReg := 0
  ULAPlusPaletteOn := 0
  spiPort := 0xfaf7
  breakpointHit := false

/-- The inline member `uint32_t getLastAudioBufferIndex() { return audioLastIndex; }`: the
returned value together with the object after the call. -/
def getLastAudioBufferIndex (m : ZXSpectrum) : Nat × ZXSpectrum :=
  (m.audioLastIndex, m)

end ZXSpectrum

/-! ## The bus adapter: paged memory access

`coreMemoryRead`, `coreMemoryWrite` and `coreMemoryContention` are pure virtual in the header
(`= 0`); the machine variants that implement them are not among the sources.  The
specification describes them: memory is a ROM and a paged RAM, and "`read`/`write` resolve
the address through current page selectors before touching Memory". -/

/-- Modelled from the spec: what backs a 16K slot of the address space, a page of the ROM
("fixed content, loaded once") or a page of the RAM ("mutable, paged"). -/
inductive MemoryPage where
  | rom (page : Nat)
  | ram (page : Nat)
  deriving DecidableEq, Repr

/-- Modelled from the spec: what distinguishes one machine variant (48K, 128K, ...) from
another on the bus, which the specification leaves to the variant: the page that backs each
slot under given page selectors, and the RAM pages that are contended. -/
structure MachineVariant where
  /-- Page behind a slot, from `emuROMPage`, `emuRAMPage`, `emuDisplayPage`,
  `emuDisablePaging` and the slot number `address / cMEMORY_PAGE_SIZE`. -/
  pageOfSlot : Nat → Nat → Nat → Bool → Nat → MemoryPage
  /-- Whether a RAM page shares the bus with the display circuitry. -/
  contendedRam : Nat → Bool

/-- Modelled from the spec: the store of one byte into a byte vector.  "Bus Adapter operations
are always valid for any address/port value ..., never by failing": the vector stands for a
memory that reads 0 at every cell it holds no element for, and a store to such a cell extends
the vector with zero bytes up to that cell. -/
def storeByte (ram : List Nat) (cell b : Nat) : List Nat :=
  if cell < ram.length then ram.set cell b
  else ram ++ List.replicate (cell - ram.length) 0 ++ [b]

namespace ZXSpectrum

/-- Modelled from the spec: resolution of a `uint16_t` address through the current page
selectors, giving the page and the offset inside it. -/
def resolveAddress (v : MachineVariant) (m : ZXSpectrum) (address : Nat) : MemoryPage × Nat :=
  let a := address % 2 ^ 16
  (v.pageOfSlot m.emuROMPage m.emuRAMPage m.emuDisplayPage m.emuDisablePaging
      (a / cMEMORY_PAGE_SIZE),
   a % cMEMORY_PAGE_SIZE)

/-- Modelled from the spec: `uint8_t coreMemoryRead(uint16_t address)`, pure virtual in the
header.  The address is resolved through the page selectors and the byte is fetched from the
ROM or the RAM vector. -/
def coreMemoryRead (v : MachineVariant) (m : ZXSpectrum) (address : Nat) : Nat :=
  match resolveAddress v m address with
  | (MemoryPage.rom p, off) => m.memoryRom.getD (p * cMEMORY_PAGE_SIZE + off) 0 % 2 ^ 8
  | (MemoryPage.ram p, off) => m.memoryRam.getD (p * cMEMORY_PAGE_SIZE + off) 0 % 2 ^ 8

/-- Modelled from the spec: `void coreMemoryWrite(uint16_t address, uint8_t data)`, pure
virtual in the header.  The address is resolved through the page selectors; ROM is read-only,
so a write that lands in ROM changes nothing, and a write that lands in RAM stores the byte. -/
def coreMemoryWrite (v : MachineVariant) (m : ZXSpectrum) (address data : Nat) : ZXSpectrum :=
  match resolveAddress v m address with
  | (MemoryPage.rom _, _) => m
  | (MemoryPage.ram p, off) =>
    { m with memoryRam := storeByte m.memoryRam (p * cMEMORY_PAGE_SIZE + off) (data % 2 ^ 8) }

/-- Modelled from the spec: the entry of `ULAMemoryContentionTable` for a T-state, the lookup
that the absent contention code performs; the index wraps at the extent of the table, so that
the lookup is valid for every T-state ("always valid ... via masking/wrapping"). -/
def memoryContentionAt (m : ZXSpectrum) (tStates : Nat) : Nat :=
  m.ULAMemoryContentionTable
    ⟨tStates % ULAMemoryContentionTableSize, Nat.mod_lt _ (by decide)⟩

/-- Modelled from the spec: the entry of `ULAIOContentionTable` for a T-state; the index wraps
at the extent of the table. -/
def ioContentionAt (m : ZXSpectrum) (tStates : Nat) : Nat :=
  m.ULAIOContentionTable
    ⟨tStates % ULAIOContentionTableSize, Nat.mod_lt _ (by decide)⟩

/-- Modelled from the spec: whether an address aliases contended RAM, "determined by current
paging, not by a fixed address range". -/
def addressContended (v : MachineVariant) (m : ZXSpectrum) (address : Nat) : Bool :=
  match (resolveAddress v m address).1 with
  | MemoryPage.rom _ => false
  | MemoryPage.ram p => v.contendedRam p

/-- Modelled from the spec: `void coreMemoryContention(uint16_t address, uint32_t tStates)`,
pure virtual in the header, as the contract `contentionDelay(address, tStateAtAccess)`: the
extra T-states charged to the CPU.  "Memory contention applies only to addresses that alias
contended RAM"; for those the delay is the precomputed table entry of the T-state. -/
def coreMemoryContention (v : MachineVariant) (m : ZXSpectrum) (address tStates : Nat) : Nat :=
  if addressContended v m address then memoryContentionAt m tStates else 0

/-- Modelled from the spec: `void ULAApplyIOContention(uint16_t address, bool contended)`,
whose body is not among the sources, as the extra T-states charged for an IO access made at
T-state `tStates`.  "Ports with bit 0 set and address ≥ 0x4000 bypass contention entirely;
others apply either high byte contended, low byte not, or both contended", each contended
byte being charged the entry of the IO contention table at the T-state it is put on the bus.
The argument `contended` tells the two patterns apart. -/
def ULAApplyIOContention (m : ZXSpectrum) (address : Nat) (contended : Bool) (tStates : Nat) :
    Nat :=
  if address % 2 = 1 ∧ 0x4000 ≤ address % 2 ^ 16 then 0
  else
    let high := ioContentionAt m tStates
    if contended then high + ioContentionAt m (tStates + high + 1) else high

/-- Modelled from the spec: the IO-contention lookup for an (address, T-state) pair, the
`contended` argument being derived from the current paging by the caller. -/
def ioContentionDelay (v : MachineVariant) (m : ZXSpectrum) (address tStates : Nat) : Nat :=
  ULAApplyIOContention m address (addressContended v m address) tStates

end ZXSpectrum

/-! ## The snapshot codec

The header declares `bool snapshotZ80LoadWithPath(const char *path)` and
`void snapshotExtractMemoryBlock(uint8_t *fileBytes, uint32_t memAddr, uint32_t fileOffset,
bool isCompressed, uint32_t unpackedLength)`; their bodies are not among the sources.  The
model keeps the declared interface of the extractor: it is handed the bytes of the file, the
offset at which a record starts and the stated unpacked length, not the end of the record, and
it returns nothing but the machine it has written to.  What is done with the bytes follows the
specification, which has the loader work on the bytes of the snapshot. -/

/-- Modelled from the spec: the part of a decoded snapshot that is not memory.  "Both decode
paths must fully reconstruct Bus Adapter page state, Display border, AY register file, and
CPU register file before returning success." -/
structure SnapshotHeader where
  z80Core : CZ80Core
  displayBorderColor : Nat
  audioAYRegisters : Fin ZXSpectrum.eAY_MAX_REGISTERS → Nat
  emuRAMPage : Nat
  emuROMPage : Nat
  emuDisplayPage : Nat
  emuDisablePaging : Bool

/-- Modelled from the spec: one memory-block record of a Z80-format snapshot as the container
lists it, "tagged with page number and a compressed/uncompressed flag", with its stated
unpacked length and the place of its bytes in the file: where they start and how many they
are. -/
structure Z80MemoryBlock where
  page : Nat
  isCompressed : Bool
  unpackedLength : Nat
  fileOffset : Nat
  packedLength : Nat

/-- Modelled from the spec: the bytes of a record inside the bytes of the file. -/
def Z80MemoryBlock.data (blk : Z80MemoryBlock) (fileBytes : List Nat) : List Nat :=
  (fileBytes.drop blk.fileOffset).take blk.packedLength

/-- Modelled from the spec: a Z80-format snapshot once its container is taken apart, a
header "followed by one or more memory-block records". -/
structure Z80Image where
  header : SnapshotHeader
  blocks : List Z80MemoryBlock

/-- Modelled from the spec: the byte-exact legacy layout, which the specification names but
does not spell out: the escape byte of the run-length scheme and how the bytes of a Z80 file
split into header and block records (version detection by the sentinel PC field included).
The parser answers `none` for bytes that "do not match any recognized length/version/sentinel"
or that declare "a machine model the engine does not emulate". -/
structure SnapshotLayout where
  escapeByte : Nat
  parseZ80 : List Nat → Option Z80Image

/-- Modelled from the spec: the store of a sequence of bytes into a byte vector from an index
on, one element after the other, as the absent loader does it. -/
def writeBytes : List Nat → Nat → List Nat → List Nat
  | ram, _, [] => ram
  | ram, memoryPtr, b :: bs => writeBytes (storeByte ram memoryPtr b) (memoryPtr + 1) bs

/-- Modelled from the spec: the store of `count` copies of `value` into a byte vector from an
index on, the expansion of one run-length triplet by the absent block extractor. -/
def storeRun : List Nat → Nat → Nat → Nat → List Nat
  | ram, _, 0, _ => ram
  | ram, memoryPtr, count + 1, value =>
    storeRun (storeByte ram memoryPtr value) (memoryPtr + 1) count value

/-- Modelled from the spec: the run-length scheme in the words of the specification, "specific
escape byte + repeat-count + value triplets": an escape byte announces a count and a value and
stands for that many copies of the value, any other byte stands for itself.  Input that ends
inside a triplet has no expansion. -/
def rleExpand (esc : Nat) : List Nat → Option (List Nat)
  | [] => some []
  | b :: rest =>
    if b = esc then
      match rest with
      | count :: value :: rest2 =>
        (rleExpand esc rest2).map (fun xs => List.replicate count value ++ xs)
      | _ => none
    else (rleExpand esc rest).map (fun xs => b :: xs)

/-- Modelled from the spec: the expansion of the bytes of a block: run-length expansion when
the block is flagged as compressed, the bytes themselves otherwise. -/
def blockExpansion (esc : Nat) (isCompressed : Bool) (data : List Nat) : Option (List Nat) :=
  if isCompressed then rleExpand esc data else some data

/-- Modelled from the spec: the size a record unpacks to, counted by the absent loader while
it walks the bytes of the record, "to catch truncated or corrupted input": a triplet counts for
its repeat count, any other byte for one, and a record that ends inside a triplet has no
size. -/
def unpackedSize (esc : Nat) (isCompressed : Bool) : List Nat → Option Nat
  | [] => some 0
  | b :: rest =>
    if isCompressed = true ∧ b = esc then
      match rest with
      | count :: _ :: rest2 => (unpackedSize esc isCompressed rest2).map (fun n => count + n)
      | _ => none
    else (unpackedSize esc isCompressed rest).map (fun n => 1 + n)

/-- Modelled from the spec: the copy loop of the absent `snapshotExtractMemoryBlock`: bytes are
taken from the front of what the pointer gives and stored from `memoryPtr` on until `stop`,
the end of the stated unpacked length, is reached.  The loop also ends where the bytes end or
a triplet is cut short; it has no knowledge of where the record ends. -/
def unpackLoop (esc : Nat) (isCompressed : Bool) : List Nat → List Nat → Nat → Nat → List Nat
  | [], ram, _, _ => ram
  | b :: rest, ram, memoryPtr, stop =>
    if stop ≤ memoryPtr then ram
    else if isCompressed = true ∧ b = esc then
      match rest with
      | count :: value :: rest2 =>
        unpackLoop esc isCompressed rest2 (storeRun ram memoryPtr count value)
          (memoryPtr + count) stop
      | _ => ram
    else unpackLoop esc isCompressed rest (storeByte ram memoryPtr b) (memoryPtr + 1) stop

namespace ZXSpectrum

/-- Modelled from the spec: `void snapshotExtractMemoryBlock(fileBytes, memAddr, fileOffset,
isCompressed, unpackedLength)` with its declared interface: the bytes of the file from
`fileOffset` on are unpacked into `memoryRam` from `memAddr` on, for the stated unpacked
length.  The function returns nothing; its whole effect is the machine after the call. -/
def snapshotExtractMemoryBlock (esc : Nat) (m : ZXSpectrum) (fileBytes : List Nat)
    (memAddr fileOffset : Nat) (isCompressed : Bool) (unpackedLength : Nat) : ZXSpectrum :=
  let stop := memAddr + unpackedLength
  { m with
    memoryRam := unpackLoop esc isCompressed (fileBytes.drop fileOffset) m.memoryRam memAddr stop }

/-- Modelled from the spec: the check of the absent loader that a record "must be decoded to
the stated unpacked length exactly — decode fails if the unpacked size does not match".  The
loader knows where the record ends; it compares the size the record unpacks to with the
stated one. -/
def snapshotBlockUnpacksExactly (esc : Nat) (fileBytes : List Nat) (blk : Z80MemoryBlock) :
    Bool :=
  unpackedSize esc blk.isCompressed (blk.data fileBytes) == some blk.unpackedLength

/-- Modelled from the spec: the reconstruction of "Bus Adapter page state, Display border, AY
register file, and CPU register file" from a decoded header. -/
def snapshotRestoreHeader (m : ZXSpectrum) (h : SnapshotHeader) : ZXSpectrum :=
  { m with
    z80Core := h.z80Core
    displayBorderColor := h.displayBorderColor
    audioAYRegisters := h.audioAYRegisters
    emuRAMPage := h.emuRAMPage
    emuROMPage := h.emuROMPage
    emuDisplayPage := h.emuDisplayPage
    emuDisablePaging := h.emuDisablePaging }

/-- Modelled from the spec: the call the absent loader makes for one record: the extractor
is handed the bytes of the file, the start of the RAM page the record is tagged with, the
offset of the record, its flag and its stated unpacked length, which is all that the declared
parameters can carry. -/
def snapshotExtractRecord (esc : Nat) (m : ZXSpectrum) (fileBytes : List Nat)
    (blk : Z80MemoryBlock) : ZXSpectrum :=
  snapshotExtractMemoryBlock esc m fileBytes (blk.page * cMEMORY_PAGE_SIZE) blk.fileOffset
    blk.isCompressed blk.unpackedLength

/-- Modelled from the spec: the block records of a Z80 snapshot are extracted one after the
other, each into the RAM page it is tagged with. -/
def snapshotExtractMemoryBlocks (esc : Nat) (fileBytes : List Nat) :
    List Z80MemoryBlock → ZXSpectrum → ZXSpectrum
  | [], m => m
  | b :: bs, m =>
    snapshotExtractMemoryBlocks esc fileBytes bs (snapshotExtractRecord esc m fileBytes b)

/-- Modelled from the spec: `bool snapshotZ80LoadWithPath(const char *path)`, handed the bytes
of the snapshot ("the engine receives/returns in-memory byte buffers").  The bytes are taken
apart and every record is checked to unpack to its stated length; only then is the header
restored and every block extracted: "partial failure (e.g., one bad memory block) aborts the
whole load and leaves the machine state unchanged".  The answer is the boolean result and the
machine after the call. -/
def snapshotZ80LoadWithPath (layout : SnapshotLayout) (m : ZXSpectrum) (fileBytes : List Nat) :
    Bool × ZXSpectrum :=
  match layout.parseZ80 fileBytes with
  | none => (false, m)
  | some image =>
    if image.blocks.all (snapshotBlockUnpacksExactly layout.escapeByte fileBytes) then
      (true, snapshotExtractMemoryBlocks layout.escapeByte fileBytes image.blocks
               (snapshotRestoreHeader m image.header))
    else (false, m)

end ZXSpectrum

/-! ## Concrete inputs

A machine variant, a snapshot layout, snapshot files and machines with a little memory, on
which the definitions above are evaluated. -/

/-- A variant in the style of the 48K machine: the first 16K slot is ROM page 0, the slots
from 0x4000 on are the RAM pages 0, 1 and 2, and RAM page 0, which holds the display file, is
contended. -/
def variant48K : MachineVariant where
  pageOfSlot := fun _ _ _ _ slot => if slot = 0 then MemoryPage.rom 0 else MemoryPage.ram (slot - 1)
  contendedRam := fun p => p == 0

/-- A header that restores the given program counter and border and clears the rest. -/
def sampleHeader (pc border : Nat) : SnapshotHeader where
  z80Core := { regPC := pc, registers := [] }
  displayBorderColor := border
  audioAYRegisters := fun _ => 0
  emuRAMPage := 0
  emuROMPage := 0
  emuDisplayPage := 0
  emuDisablePaging := true

/-- A small layout: escape byte 0xED; a Z80 file is program counter, border, page, compression
flag, stated unpacked length and packed length of its single block, followed by the bytes of
that block. -/
def sampleLayout : SnapshotLayout where
  escapeByte := 0xED
  parseZ80 := fun bytes =>
    match bytes with
    | pc :: border :: page :: flag :: len :: packed :: _ =>
      some { header := sampleHeader pc border,
             blocks := [{ page := page, isCompressed := flag != 0, unpackedLength := len,
                          fileOffset := 6, packedLength := packed }] }
    | _ => none

/-- A Z80 file whose block of four bytes unpacks to its stated length of four bytes. -/
def goodSnapshot : List Nat := [5, 2, 0, 1, 4, 4, 0xED, 3, 9, 7]

/-- A Z80 file whose block of four bytes states five bytes but unpacks to four. -/
def badSnapshot : List Nat := [5, 2, 0, 1, 5, 4, 0xED, 3, 9, 7]

namespace ZXSpectrum

/-- A machine with four bytes of ROM and eight bytes of RAM, otherwise as constructed. -/
def small : ZXSpectrum :=
  { fresh with memoryRom := [1, 2, 3, 4], memoryRam := [0, 0, 0, 0, 0, 0, 0, 0] }

/-- The small machine with contention tables filled in: the memory table repeats the delays
0 to 7 and the IO table the delays 0 to 3. -/
def contended : ZXSpectrum :=
  { small with
    ULAMemoryContentionTable := fun i => i.val % 8
    ULAIOContentionTable := fun i => i.val % 4 }

end ZXSpectrum

/-! # Theorems -/

/-! ## Byte vectors -/

theorem writeBytes_append (ram : List Nat) (memoryPtr : Nat) (xs ys : List Nat) :
    writeBytes ram memoryPtr (xs ++ ys)
      = writeBytes (writeBytes ram memoryPtr xs) (memoryPtr + xs.length) ys := by
  induction xs generalizing ram memoryPtr with
  | nil => simp [writeBytes]
  | cons x xs ih =>
    have e : memoryPtr + (xs.length + 1) = memoryPtr + 1 + xs.length := by omega
    rw [List.cons_append, writeBytes, writeBytes, ih, List.length_cons, e]

theorem storeRun_eq_writeBytes (ram : List Nat) (memoryPtr count value : Nat) :
    storeRun ram memoryPtr count value
      = writeBytes ram memoryPtr (List.replicate count value) := by
  induction count generalizing ram memoryPtr with
  | zero => simp [storeRun, writeBytes]
  | succ n ih => simp [storeRun, writeBytes, List.replicate_succ, ih]

/-! ## The run-length scheme -/

theorem rleExpand_cons_ne (esc b : Nat) (rest : List Nat) (hb : ¬ b = esc) :
    rleExpand esc (b :: rest) = (rleExpand esc rest).map (fun xs => b :: xs) := by
  rw [rleExpand.eq_def]
  simp only [hb, if_false]

theorem unpackLoop_done (esc : Nat) (c : Bool) (input ram : List Nat) (memoryPtr stop : Nat)
    (h : stop ≤ memoryPtr) : unpackLoop esc c input ram memoryPtr stop = ram := by
  cases input with
  | nil => rfl
  | cons b rest =>
    rw [unpackLoop.eq_def]
    simp only [h, if_true]

theorem unpackLoop_cons_ne (esc : Nat) (c : Bool) (b : Nat) (rest ram : List Nat)
    (memoryPtr stop : Nat) (hlt : ¬ stop ≤ memoryPtr) (h : ¬ (c = true ∧ b = esc)) :
    unpackLoop esc c (b :: rest) ram memoryPtr stop
      = unpackLoop esc c rest (storeByte ram memoryPtr b) (memoryPtr + 1) stop := by
  rw [unpackLoop.eq_def]
  simp only [hlt, h, if_false]

theorem unpackLoop_triplet (esc : Nat) (count value : Nat) (rest ram : List Nat)
    (memoryPtr stop : Nat) (hlt : ¬ stop ≤ memoryPtr) :
    unpackLoop esc true (esc :: count :: value :: rest) ram memoryPtr stop
      = unpackLoop esc true rest (storeRun ram memoryPtr count value) (memoryPtr + count)
          stop := by
  rw [unpackLoop.eq_def]
  simp only [hlt, if_false, and_self, if_true]

/-- On a record that unpacks to exactly the stated length the copy loop stores the expansion
of the record, whatever bytes follow the record in the file. -/
theorem unpackLoop_exact (esc : Nat) (c : Bool) (data : List Nat) :
    ∀ (tail ram : List Nat) (memoryPtr stop : Nat) (xs : List Nat),
      blockExpansion esc c data = some xs → memoryPtr + xs.length = stop →
      unpackLoop esc c (data ++ tail) ram memoryPtr stop = writeBytes ram memoryPtr xs := by
  induction data using unpackedSize.induct esc c with
  | case1 =>
    intro tail ram p stop xs hx hlen
    have hxs : xs = [] := by
      cases c <;> simp [blockExpansion, rleExpand] at hx <;> exact hx
    subst hxs
    simp only [List.length_nil, Nat.add_zero] at hlen
    rw [List.nil_append, unpackLoop_done esc c tail ram p stop (by omega)]
    rfl
  | case2 b h count value rest2 ih =>
    intro tail ram p stop xs hx hlen
    obtain ⟨hc, hb⟩ := h
    subst hc; subst hb
    simp only [blockExpansion, rleExpand, if_true] at hx ih
    cases hy : rleExpand b rest2 with
    | none => rw [hy] at hx; simp at hx
    | some ys =>
      rw [hy] at hx
      simp only [Option.map_some', Option.some.injEq] at hx
      subst hx
      simp only [List.length_append, List.length_replicate] at hlen
      by_cases hdone : stop ≤ p
      · have hc0 : count = 0 := by omega
        have hy0 : ys = [] := List.eq_nil_of_length_eq_zero (by omega)
        subst hc0; subst hy0
        rw [unpackLoop_done b true _ ram p stop hdone]
        rfl
      · rw [List.cons_append, List.cons_append, List.cons_append,
          unpackLoop_triplet b count value (rest2 ++ tail) ram p stop hdone,
          ih tail (storeRun ram p count value) (p + count) stop ys hy (by omega),
          writeBytes_append, storeRun_eq_writeBytes, List.length_replicate]
  | case3 b rest h hrest =>
    intro tail ram p stop xs hx hlen
    obtain ⟨hc, hb⟩ := h
    subst hc; subst hb
    exfalso
    match rest, hrest with
    | [], _ => simp [blockExpansion, rleExpand] at hx
    | [x], _ => simp [blockExpansion, rleExpand] at hx
    | x :: y :: r, hrest => exact hrest x y r rfl
  | case4 b rest h ih =>
    intro tail ram p stop xs hx hlen
    have hcons : ∃ ys, blockExpansion esc c rest = some ys ∧ xs = b :: ys := by
      cases c with
      | false =>
        simp only [blockExpansion, Bool.false_eq_true, if_false, Option.some.injEq] at hx ⊢
        exact ⟨rest, rfl, hx.symm⟩
      | true =>
        have hb : ¬ b = esc := fun e => h ⟨rfl, e⟩
        simp only [blockExpansion, if_true, rleExpand_cons_ne esc b rest hb] at hx ⊢
        cases hy : rleExpand esc rest with
        | none => rw [hy] at hx; simp at hx
        | some ys =>
          rw [hy] at hx
          simp only [Option.map_some', Option.some.injEq] at hx
          exact ⟨ys, rfl, hx.symm⟩
    obtain ⟨ys, hy, hxs⟩ := hcons
    subst hxs
    simp only [List.length_cons] at hlen
    rw [List.cons_append, unpackLoop_cons_ne esc c b (rest ++ tail) ram p stop (by omega) h,
      ih tail (storeByte ram p b) (p + 1) stop ys hy (by omega)]
    rfl

namespace ZXSpectrum

/-! ## Properties read off the header -/

/-- C4: for every machine whose `audioLastIndex` member holds a `uint32_t`,
`getLastAudioBufferIndex()` returns exactly that member, the most recent audio write position
recorded in the state, the returned value is an unsigned 32-bit value, the call leaves every
field of the object as it was, and on a freshly constructed machine the call returns 0. -/
theorem getLastAudioBufferIndex_reports_last_index (m : ZXSpectrum)
    (h32 : m.audioLastIndex < 2 ^ 32) :
    (getLastAudioBufferIndex m).1 = m.audioLastIndex ∧
    (getLastAudioBufferIndex m).1 < 2 ^ 32 ∧
    (getLastAudioBufferIndex m).2 = m ∧
    (getLastAudioBufferIndex fresh).1 = 0 :=
  ⟨rfl, h32, rfl, rfl⟩

/-- Witness for C4 at a machine whose last audio index is 1234. -/
theorem getLastAudioBufferIndex_reports_last_index_witness :
    (getLastAudioBufferIndex { fresh with audioLastIndex := 1234 }).1 = 1234 ∧
    (getLastAudioBufferIndex { fresh with audioLastIndex := 1234 }).1 < 2 ^ 32 ∧
    (getLastAudioBufferIndex { fresh with audioLastIndex := 1234 }).2
      = { fresh with audioLastIndex := 1234 } ∧
    (getLastAudioBufferIndex fresh).1 = 0 :=
  getLastAudioBufferIndex_reports_last_index { fresh with audioLastIndex := 1234 } (by decide)

/-- C5: the AY register enumeration names exactly sixteen logical registers with the
consecutive indices 0 to 15, from `eAYREGISTER_A_FINE` = 0 to `eAYREGISTER_PORT_B` = 15, the
floating slot `eAYREGISTER_FLOATING` has index 16, the first index above 15,
`eAY_MAX_REGISTERS` is 17, and every selected register index `i` that is at most
`eAYREGISTER_FLOATING` is in bounds of the register file `audioAYRegisters`, whose extent is
`eAY_MAX_REGISTERS`: the file has an entry at `i`, which in a freshly constructed machine
holds 0. -/
theorem ay_register_enumeration_in_bounds (i : Nat) (hi : i ≤ eAYREGISTER_FLOATING) :
    ayLogicalRegisters = List.range 16 ∧
    ayLogicalRegisters.length = 16 ∧
    eAYREGISTER_A_FINE = 0 ∧
    eAYREGISTER_PORT_B = 15 ∧
    eAYREGISTER_FLOATING = 16 ∧
    eAYREGISTER_FLOATING = eAYREGISTER_PORT_B + 1 ∧
    eAY_MAX_REGISTERS = 17 ∧
    i < eAY_MAX_REGISTERS ∧
    (∃ k : Fin eAY_MAX_REGISTERS, k.val = i ∧ fresh.audioAYRegisters k = 0) := by
  have h : i < eAY_MAX_REGISTERS := by
    have : i ≤ 16 := hi
    show i < 17
    omega
  exact ⟨by decide, by decide, rfl, rfl, rfl, rfl, rfl, h, ⟨i, h⟩, rfl, rfl⟩

/-- Witness for C5 at the floating slot, index 16. -/
theorem ay_register_enumeration_in_bounds_witness :
    ayLogicalRegisters = List.range 16 ∧
    ayLogicalRegisters.length = 16 ∧
    eAYREGISTER_A_FINE = 0 ∧
    eAYREGISTER_PORT_B = 15 ∧
    eAYREGISTER_FLOATING = 16 ∧
    eAYREGISTER_FLOATING = eAYREGISTER_PORT_B + 1 ∧
    eAY_MAX_REGISTERS = 17 ∧
    16 < eAY_MAX_REGISTERS ∧
    (∃ k : Fin eAY_MAX_REGISTERS, k.val = 16 ∧ fresh.audioAYRegisters k = 0) :=
  ay_register_enumeration_in_bounds 16 (by decide)

/-- C6: for every scanline `s` below 312 and column `c` below 228 of `displayTstateTable`,
the linear T-state index `s * 228 + c` lies below the extent 80000 of each of
`ULAMemoryContentionTable`, `ULAIOContentionTable` and `ULAFloatingBusTable`, so a lookup at
any T-state of a frame is in bounds in all three tables. -/
theorem contention_tables_cover_frame (s c : Nat)
    (hs : s < displayTstateTableRows) (hc : c < displayTstateTableCols) :
    displayTstateTableRows = 312 ∧
    displayTstateTableCols = 228 ∧
    ULAMemoryContentionTableSize = 80000 ∧
    ULAIOContentionTableSize = 80000 ∧
    ULAFloatingBusTableSize = 80000 ∧
    s * displayTstateTableCols + c < ULAMemoryContentionTableSize ∧
    s * displayTstateTableCols + c < ULAIOContentionTableSize ∧
    s * displayTstateTableCols + c < ULAFloatingBusTableSize := by
  have hs2 : s < 312 := hs
  have hc2 : c < 228 := hc
  refine ⟨rfl, rfl, rfl, rfl, rfl, ?_, ?_, ?_⟩
  · show s * 228 + c < 80000
    omega
  · show s * 228 + c < 80000
    omega
  · show s * 228 + c < 80000
    omega

/-- Witness for C6 at the last entry of the timing table, scanline 311 and column 227. -/
theorem contention_tables_cover_frame_witness :
    displayTstateTableRows = 312 ∧
    displayTstateTableCols = 228 ∧
    ULAMemoryContentionTableSize = 80000 ∧
    ULAIOContentionTableSize = 80000 ∧
    ULAFloatingBusTableSize = 80000 ∧
    311 * displayTstateTableCols + 227 < ULAMemoryContentionTableSize ∧
    311 * displayTstateTableCols + 227 < ULAIOContentionTableSize ∧
    311 * displayTstateTableCols + 227 < ULAFloatingBusTableSize :=
  contention_tables_cover_frame 311 227 (by decide) (by decide)

/-- C8: the file-scope `ULAPlusMode` enumeration and the class-scope anonymous enumeration
give corresponding members the same value, palette group 0 and mode group 1, and inside each
enumeration the two values differ. -/
theorem ulaplus_mode_enumerations_agree :
    eULAPlusPaletteGroup = eULAplusPaletteGroup ∧
    eULAplusPaletteGroup = 0 ∧
    eULAPlusModeGroup = eULAplusModeGroup ∧
    eULAplusModeGroup = 1 ∧
    eULAPlusPaletteGroup ≠ eULAPlusModeGroup ∧
    eULAplusPaletteGroup ≠ eULAplusModeGroup := by
  refine ⟨rfl, rfl, rfl, rfl, by decide, by decide⟩

/-- C9 as stated fails: in a freshly constructed machine the two mode members differ,
`ulaPlusMode` is 0 while `ULAPlusMode` is `eULAplusModeGroup`, so the three field equalities
do not hold together. -/
theorem fresh_ulaplus_copies_disagree :
    ¬ (fresh.ulaPlusMode = fresh.ULAPlusMode ∧
       fresh.ulaPlusPaletteOn = fresh.ULAPlusPaletteOn ∧
       fresh.ulaPlusCurrentReg = fresh.ULAPlusCurrentReg) := by
  intro h
  exact absurd h.1 (by decide)

/-- C9 amended: in a freshly constructed machine the two copies of the ULAPlus state agree on
the palette switch and on the current register, both 0, while the mode members are
initialised differently: `ulaPlusMode` is 0, the palette group, and `ULAPlusMode` is
`eULAplusModeGroup`, which is 1. -/
theorem fresh_ulaplus_copies :
    fresh.ulaPlusPaletteOn = fresh.ULAPlusPaletteOn ∧
    fresh.ulaPlusPaletteOn = 0 ∧
    fresh.ulaPlusCurrentReg = fresh.ULAPlusCurrentReg ∧
    fresh.ulaPlusCurrentReg = 0 ∧
    fresh.ulaPlusMode = eULAplusPaletteGroup ∧
    fresh.ulaPlusMode = 0 ∧
    fresh.ULAPlusMode = eULAplusModeGroup ∧
    fresh.ULAPlusMode = 1 :=
  ⟨rfl, rfl, rfl, rfl, rfl, rfl, rfl, rfl⟩

/-- C10: the display-file constants are consistent: `cBITMAP_SIZE` is 192 lines of 32 bytes
with 192 the extent of `displayLineAddrTable`, `cATTR_SIZE` is 24 rows of 32 bytes and one
eighth of `cBITMAP_SIZE`, `cBITMAP_ADDRESS` equals `cMEMORY_PAGE_SIZE`, and for every offset
`o` below `cBITMAP_SIZE + cATTR_SIZE` the address `cBITMAP_ADDRESS + o` stays below
`2 * cMEMORY_PAGE_SIZE`, its distance from `cBITMAP_ADDRESS` stays below `cMEMORY_PAGE_SIZE`,
so the display file lies inside the page that starts at `cBITMAP_ADDRESS`, and neither the
size of the display file nor the address overflows 16 bits. -/
theorem display_file_constants_consistent (o : Nat) (ho : o < cBITMAP_SIZE + cATTR_SIZE) :
    cBITMAP_SIZE = displayLineAddrTableSize * 32 ∧
    displayLineAddrTableSize = 192 ∧
    cATTR_SIZE = 24 * 32 ∧
    cATTR_SIZE = cBITMAP_SIZE / 8 ∧
    cBITMAP_ADDRESS = cMEMORY_PAGE_SIZE ∧
    cBITMAP_SIZE + cATTR_SIZE < 2 ^ 16 ∧
    cBITMAP_ADDRESS + o < 2 * cMEMORY_PAGE_SIZE ∧
    (cBITMAP_ADDRESS + o) - cBITMAP_ADDRESS < cMEMORY_PAGE_SIZE ∧
    (cBITMAP_ADDRESS + o) / cMEMORY_PAGE_SIZE = cBITMAP_ADDRESS / cMEMORY_PAGE_SIZE ∧
    cBITMAP_ADDRESS + o < 2 ^ 16 := by
  refine ⟨by decide, rfl, by decide, by decide, rfl, by decide, ?_⟩
  simp only [cBITMAP_SIZE, cATTR_SIZE, cBITMAP_ADDRESS, cMEMORY_PAGE_SIZE] at *
  omega

/-- Witness for C10 at the last byte of the attribute area, offset 6911. -/
theorem display_file_constants_consistent_witness :
    cBITMAP_SIZE = displayLineAddrTableSize * 32 ∧
    displayLineAddrTableSize = 192 ∧
    cATTR_SIZE = 24 * 32 ∧
    cATTR_SIZE = cBITMAP_SIZE / 8 ∧
    cBITMAP_ADDRESS = cMEMORY_PAGE_SIZE ∧
    cBITMAP_SIZE + cATTR_SIZE < 2 ^ 16 ∧
    cBITMAP_ADDRESS + 6911 < 2 * cMEMORY_PAGE_SIZE ∧
    (cBITMAP_ADDRESS + 6911) - cBITMAP_ADDRESS < cMEMORY_PAGE_SIZE ∧
    (cBITMAP_ADDRESS + 6911) / cMEMORY_PAGE_SIZE = cBITMAP_ADDRESS / cMEMORY_PAGE_SIZE ∧
    cBITMAP_ADDRESS + 6911 < 2 ^ 16 :=
  display_file_constants_consistent 6911 (by decide)

end ZXSpectrum

namespace ZXSpectrum

/-! ## Bus adapter -/

/-- A write changes nothing but `memoryRam`: the ROM and the page selectors stay. -/
theorem coreMemoryWrite_frame (v : MachineVariant) (m : ZXSpectrum) (address data : Nat) :
    (coreMemoryWrite v m address data).memoryRom = m.memoryRom ∧
    (coreMemoryWrite v m address data).emuROMPage = m.emuROMPage ∧
    (coreMemoryWrite v m address data).emuRAMPage = m.emuRAMPage ∧
    (coreMemoryWrite v m address data).emuDisplayPage = m.emuDisplayPage ∧
    (coreMemoryWrite v m address data).emuDisablePaging = m.emuDisablePaging := by
  unfold coreMemoryWrite
  split <;> exact ⟨rfl, rfl, rfl, rfl, rfl⟩

/-- The reads of the examples by evaluation: RAM inside and beyond the cells the vector
holds reads back the byte written, the ROM address reads the ROM byte. -/
theorem write_then_read_examples :
    coreMemoryRead variant48K (coreMemoryWrite variant48K small 0x4003 77) 0x4003 = 77 ∧
    coreMemoryRead variant48K (coreMemoryWrite variant48K small 0x4008 77) 0x4008 = 77 ∧
    coreMemoryRead variant48K (coreMemoryWrite variant48K small 0x4003 77) 0x4004 = 0 ∧
    coreMemoryRead variant48K (coreMemoryWrite variant48K small 0x0003 77) 0x0003 = 4 := by
  decide

end ZXSpectrum

namespace ZXSpectrum

/-! ## Contention model -/

/-- C7: contention delay lookup is deterministic: for every machine variant and every two
machine states that agree on the page selectors and on the two contention tables, and for
every address and T-state, the memory-contention lookup yields the same delay in both states
and so does the IO-contention lookup. -/
theorem contention_lookup_deterministic (v : MachineVariant) (m1 m2 : ZXSpectrum)
    (address tStates : Nat)
    (hrom : m1.emuROMPage = m2.emuROMPage) (hram : m1.emuRAMPage = m2.emuRAMPage)
    (hdisplay : m1.emuDisplayPage = m2.emuDisplayPage)
    (hpaging : m1.emuDisablePaging = m2.emuDisablePaging)
    (hmem : m1.ULAMemoryContentionTable = m2.ULAMemoryContentionTable)
    (hio : m1.ULAIOContentionTable = m2.ULAIOContentionTable) :
    coreMemoryContention v m1 address tStates = coreMemoryContention v m2 address tStates ∧
    ioContentionDelay v m1 address tStates = ioContentionDelay v m2 address tStates := by
  have hres : resolveAddress v m1 address = resolveAddress v m2 address := by
    unfold resolveAddress
    rw [hrom, hram, hdisplay, hpaging]
  have hcont : addressContended v m1 address = addressContended v m2 address := by
    unfold addressContended
    rw [hres]
  have hmemAt : ∀ t, memoryContentionAt m1 t = memoryContentionAt m2 t := by
    intro t
    unfold memoryContentionAt
    rw [hmem]
  have hioAt : ∀ t, ioContentionAt m1 t = ioContentionAt m2 t := by
    intro t
    unfold ioContentionAt
    rw [hio]
  constructor
  · unfold coreMemoryContention
    rw [hcont, hmemAt]
  · unfold ioContentionDelay ULAApplyIOContention
    simp only [hcont, hioAt]

/-- Witness for C7: a machine with filled contention tables, and the same machine after the
border, the audio index and a byte of memory changed. -/
theorem contention_lookup_deterministic_witness :
    coreMemoryContention variant48K contended 0x4000 14341
      = coreMemoryContention variant48K
          { contended with displayBorderColor := 5, audioLastIndex := 9,
                           memoryRam := [1, 0, 0, 0, 0, 0, 0, 0] } 0x4000 14341 ∧
    ioContentionDelay variant48K contended 0x40FE 14341
      = ioContentionDelay variant48K
          { contended with displayBorderColor := 5, audioLastIndex := 9,
                           memoryRam := [1, 0, 0, 0, 0, 0, 0, 0] } 0x40FE 14341 :=
  contention_lookup_deterministic variant48K contended
    { contended with displayBorderColor := 5, audioLastIndex := 9,
                     memoryRam := [1, 0, 0, 0, 0, 0, 0, 0] }
    0x4000 14341 rfl rfl rfl rfl rfl rfl

/-- The lookups of the example are not constant: the delay follows the table entry of the
T-state, contended RAM is charged and ROM is not, and a port with bit 0 set above 0x4000
bypasses IO contention. -/
theorem contention_lookup_examples :
    coreMemoryContention variant48K contended 0x4000 14341 = 5 ∧
    coreMemoryContention variant48K contended 0x4000 14342 = 6 ∧
    coreMemoryContention variant48K contended 0x0000 14341 = 0 ∧
    coreMemoryContention variant48K contended 0x8000 14341 = 0 ∧
    ioContentionDelay variant48K contended 0x40FE 14341 = 4 ∧
    ioContentionDelay variant48K contended 0x80FE 14341 = 1 ∧
    ioContentionDelay variant48K contended 0x40FF 14341 = 0 := by
  decide

end ZXSpectrum

namespace ZXSpectrum

/-! ## Snapshot codec -/

/-- On a record that unpacks to exactly its stated length the extractor stores the expansion
of the record in the RAM page the record is tagged with, whatever follows the record in the
file. -/
theorem snapshotExtractRecord_exact (esc : Nat) (m : ZXSpectrum) (fileBytes : List Nat)
    (blk : Z80MemoryBlock) (xs : List Nat)
    (hx : blockExpansion esc blk.isCompressed (blk.data fileBytes) = some xs)
    (hlen : xs.length = blk.unpackedLength) :
    snapshotExtractRecord esc m fileBytes blk
      = { m with memoryRam := writeBytes m.memoryRam (blk.page * cMEMORY_PAGE_SIZE) xs } := by
  unfold snapshotExtractRecord snapshotExtractMemoryBlock
  have hsplit : fileBytes.drop blk.fileOffset
      = blk.data fileBytes ++ (fileBytes.drop blk.fileOffset).drop blk.packedLength := by
    unfold Z80MemoryBlock.data
    rw [List.take_append_drop]
  simp only
  rw [hsplit, unpackLoop_exact esc blk.isCompressed (blk.data fileBytes) _ m.memoryRam
    (blk.page * cMEMORY_PAGE_SIZE) (blk.page * cMEMORY_PAGE_SIZE + blk.unpackedLength) xs hx
    (by omega)]

/-- A Z80 file whose block unpacks to its stated length loads: the call returns true, the
block is in memory and the header is restored. -/
theorem z80_load_succeeds_on_matching_block :
    (snapshotZ80LoadWithPath sampleLayout small goodSnapshot).1 = true ∧
    (snapshotZ80LoadWithPath sampleLayout small goodSnapshot).2.memoryRam
      = [9, 9, 9, 7, 0, 0, 0, 0] ∧
    (snapshotZ80LoadWithPath sampleLayout small goodSnapshot).2.displayBorderColor = 2 ∧
    (snapshotZ80LoadWithPath sampleLayout small goodSnapshot).2.z80Core.regPC = 5 ∧
    (snapshotZ80LoadWithPath sampleLayout small badSnapshot).1 = false := by
  decide

end ZXSpectrum
